import Mathlib

/-!
Shallow embedding of the QuantConnect-Dashboard repository
(src/fetch_data.py, src/test_credentials.py, src/debug_live_data.py).

Python JSON values are modelled by the inductive type JVal.  Python
distinguishes int and float, so the model keeps two numeric
constructors: intg (Python int) and num (Python float, modelled as a
rational number; the finitely many float literals appearing in the
claims are exactly representable).  Python exceptions that the source
code does not catch (AttributeError, KeyError, TypeError,
json.JSONDecodeError) are modelled by the Except monad: an
uncaught exception is an Except.error value that propagates.
-/

inductive JVal where
  | null : JVal
  | bool : Bool → JVal
  | intg : Int → JVal
  | num : ℚ → JVal
  | str : String → JVal
  | arr : List JVal → JVal
  | obj : List (String × JVal) → JVal
deriving Repr

namespace JVal

/-- Python truthiness of a value: None, False, 0, 0.0, empty string,
empty list and empty dict are falsy, everything else is truthy. -/
def truthy : JVal → Bool
  | .null => false
  | .bool b => b
  | .intg n => n != 0
  | .num q => q != 0
  | .str s => !s.isEmpty
  | .arr xs => !xs.isEmpty
  | .obj fs => !fs.isEmpty

/-- Numeric view used by Python cross-type equality and comparison:
bools, ints and floats all live in one numeric tower. -/
def asNum : JVal → Option ℚ
  | .bool b => some (if b then 1 else 0)
  | .intg n => some (n : ℚ)
  | .num q => some q
  | _ => none

end JVal

open JVal

mutual

/-- Python equality (the == operator) restricted to the shapes the
scripts compare: numeric values compare through the numeric tower
(so True == 1 and 5 == 5.0 hold, as in Python), strings compare as
strings, lists elementwise.  Dict equality is modelled as ordered
field equality; the scripts never compare dicts.  -/
def jeq : JVal → JVal → Bool
  | .null, .null => true
  | .str a, .str b => a == b
  | .arr a, .arr b => jeqList a b
  | .obj a, .obj b => jeqFields a b
  | a, b =>
    match a.asNum, b.asNum with
    | some x, some y => x == y
    | _, _ => false

/-- Elementwise Python equality of lists. -/
def jeqList : List JVal → List JVal → Bool
  | [], [] => true
  | x :: xs, y :: ys => jeq x y && jeqList xs ys
  | _, _ => false

/-- Fieldwise Python equality of dict entry lists. -/
def jeqFields : List (String × JVal) → List (String × JVal) → Bool
  | [], [] => true
  | (k, x) :: xs, (l, y) :: ys => k == l && jeq x y && jeqFields xs ys
  | _, _ => false

end

namespace JVal

/-- Python expression a or b: the left operand when it is truthy,
otherwise the right operand. -/
def pyOr (a b : JVal) : JVal := if a.truthy then a else b

/-- Lookup of a key in a dict entry list, with a default.  Upstream
dicts come from json.loads and therefore have unique keys. -/
def getF (fs : List (String × JVal)) (k : String) (d : JVal) : JVal :=
  ((fs.lookup k).getD d)

/-- Python d.get(key, default).  Calling .get on a non-dict raises
AttributeError, which none of the scripts catch. -/
def dictGet (v : JVal) (k : String) (d : JVal) : Except String JVal :=
  match v with
  | .obj fs => .ok (getF fs k d)
  | _ => .error "AttributeError: .get on a non-dict value"

/-- Python one-argument d.get(key), whose default is None. -/
def jget (v : JVal) (k : String) : Except String JVal := dictGet v k .null

/-- Python subscription v[k].  Modelled for the shapes that occur in
the scripts: dict[str] (KeyError when absent), list[int] and str[int]
with negative indexing (IndexError out of range); any other
combination raises TypeError, as in Python. -/
def jindex (v k : JVal) : Except String JVal :=
  match v, k with
  | .obj fs, .str s =>
    match fs.lookup s with
    | some x => .ok x
    | none => .error "KeyError"
  | .arr xs, .intg n =>
    let i : Int := if n < 0 then n + xs.length else n
    if h : 0 ≤ i ∧ i.toNat < xs.length then .ok (xs.get ⟨i.toNat, h.2⟩)
    else .error "IndexError"
  | .str s, .intg n =>
    let cs := s.toList
    let i : Int := if n < 0 then n + cs.length else n
    if h : 0 ≤ i ∧ i.toNat < cs.length then
      .ok (.str (String.singleton (cs.get ⟨i.toNat, h.2⟩)))
    else .error "IndexError"
  | _, _ => .error "TypeError: unsupported subscription"

/-- Python membership test, key in v.  On a dict it tests keys, on a
list it tests elements with Python equality, on a string it is a
substring test; on any other value Python raises TypeError. -/
def jmem (k : String) (v : JVal) : Except String Bool :=
  match v with
  | .obj fs => .ok (fs.any (fun f => f.1 == k))
  | .arr xs => .ok (xs.any (fun x => jeq x (.str k)))
  | .str s => .ok (s.toList.tails.any (fun t => k.toList.isPrefixOf t))
  | _ => .error "TypeError: argument of in is not iterable"

/-- Python iteration, for x in v.  Lists yield elements, dicts yield
their keys, strings yield one-character strings; other values raise
TypeError. -/
def pyIter : JVal → Except String (List JVal)
  | .arr xs => .ok xs
  | .obj fs => .ok (fs.map (fun f => .str f.1))
  | .str s => .ok (s.toList.map (fun c => .str (String.singleton c)))
  | _ => .error "TypeError: value is not iterable"

/-- Python next(iter(v), None): first element under Python iteration,
None when the iterable is empty, TypeError on non-iterables. -/
def pyNext (v : JVal) : Except String JVal := do
  let xs ← pyIter v
  pure (xs.headD .null)

/-- Python len(v) for sized values; TypeError otherwise. -/
def pyLen : JVal → Except String Nat
  | .arr xs => .ok xs.length
  | .obj fs => .ok fs.length
  | .str s => .ok s.length
  | _ => .error "TypeError: value has no len"

/-- Dict assignment d[key] = value on a dict: replaces the value in
place when the key exists, appends the entry otherwise (Python dicts
preserve insertion order).  Every call site applies it to a dict. -/
def jsetF (fs : List (String × JVal)) (k : String) (v : JVal) :
    List (String × JVal) :=
  match fs with
  | [] => [(k, v)]
  | (k0, v0) :: rest =>
    if k0 = k then (k0, v) :: rest else (k0, v0) :: jsetF rest k v

/-- Dict assignment lifted to JVal; the scripts only assign into
values that are dicts. -/
def jset (v : JVal) (k : String) (x : JVal) : JVal :=
  match v with
  | .obj fs => .obj (jsetF fs k x)
  | other => other

/-- Keys of a dict value, in order. -/
def jkeys : JVal → List String
  | .obj fs => fs.map Prod.fst
  | _ => []

/-- Field lookup on a dict value (used only to state theorems). -/
def jlookup (v : JVal) (k : String) : Option JVal :=
  match v with
  | .obj fs => fs.lookup k
  | _ => none

end JVal

/-- Python short-circuiting or over expressions that may raise:
evaluates the left expression; if its value is truthy it is the
result and the right expression is never evaluated. -/
def orElseLazy (x : Except String JVal) (y : Unit → Except String JVal) :
    Except String JVal := do
  let xv ← x
  if xv.truthy then pure xv else y ()

/-- Characters removed by str.strip() with no arguments.  Python also
strips a few rarer unicode space characters; the ASCII ones suffice
for the values the scripts handle. -/
def isPySpace (c : Char) : Bool :=
  c == ' ' || c == '\t' || c == '\n' || c == '\r' || c == '\x0b' || c == '\x0c'

/-- Python s.strip(): removes leading and trailing whitespace. -/
def pyStrip (cs : List Char) : List Char :=
  ((cs.dropWhile isPySpace).reverse.dropWhile isPySpace).reverse

/-- The cleaning step of safe_float, from fetch_data.py line 155:
val.replace applied three times with single-character patterns and
empty replacement removes every occurrence of the percent, dollar and
comma characters; .strip() then trims whitespace. -/
def cleanChars (cs : List Char) : List Char :=
  pyStrip (cs.filter (fun c => !(c == '%' || c == '$' || c == ',')))

/-- Numeric value of a digit list. -/
def digitsVal (cs : List Char) : Nat :=
  cs.foldl (fun a c => a * 10 + (c.toNat - 48)) 0

/-- Python float(s) on an already-stripped string, modelled over the
rationals: an optional sign, then digits with an optional decimal
point (at least one digit overall), then an optional exponent part.
The special strings inf, infinity and nan denote non-rational floats
and are modelled as coercion failures; numeric-literal underscores
are not modelled.  None of the claims depends on those inputs. -/
def parseFloat (cs : List Char) : Option ℚ :=
  let (sgn, cs1) : ℚ × List Char :=
    match cs with
    | '-' :: r => (-1, r)
    | '+' :: r => (1, r)
    | _ => (1, cs)
  let intDs := cs1.takeWhile Char.isDigit
  let rest := cs1.dropWhile Char.isDigit
  let (fracDs, rest2) : List Char × List Char :=
    match rest with
    | '.' :: r => (r.takeWhile Char.isDigit, r.dropWhile Char.isDigit)
    | _ => ([], rest)
  if intDs.isEmpty && fracDs.isEmpty then none
  else
    let mant : ℚ :=
      (digitsVal intDs : ℚ) + (digitsVal fracDs : ℚ) / ((10 : ℚ) ^ fracDs.length)
    match rest2 with
    | [] => some (sgn * mant)
    | e :: r =>
      if e == 'e' || e == 'E' then
        let (esgn, r2) : Int × List Char :=
          match r with
          | '-' :: r3 => (-1, r3)
          | '+' :: r3 => (1, r3)
          | _ => (1, r)
        let eDs := r2.takeWhile Char.isDigit
        let r3 := r2.dropWhile Char.isDigit
        if eDs.isEmpty || !r3.isEmpty then none
        else some (sgn * mant * (10 : ℚ) ^ (esgn * (digitsVal eDs : Int)))
      else none

/-- Coercion attempted by safe_float before its except clause: None
has no float value, strings are cleaned and parsed, bools and numbers
convert through float(), and lists and dicts raise TypeError.  A none
result is exactly the case in which safe_float answers its default. -/
def floatCoerce : JVal → Option ℚ
  | .null => none
  | .str s => parseFloat (cleanChars s.toList)
  | .bool b => some (if b then 1 else 0)
  | .intg n => some (n : ℚ)
  | .num q => some q
  | .arr _ => none
  | .obj _ => none

/-- safe_float from fetch_data.py lines 150-158: None and coercion
failures yield the default, strings are cleaned of percent, dollar
and comma characters and stripped before conversion. -/
def safe_float (val : JVal) (default : ℚ) : ℚ :=
  (floatCoerce val).getD default

/-- Python int() applied to a float: truncation toward zero. -/
def truncQ (q : ℚ) : Int :=
  if 0 ≤ q then ⌊q⌋ else ⌈q⌉

/-- fetch_data.py lines 124 and 128-129: statistics retrieved with an
empty-dict default, replaced by an empty dict when falsy, then by the
capitalised Statistics entry when still falsy and present. -/
def resolve_stats (result : JVal) : Except String JVal := do
  let s0 ← result.dictGet "statistics" (.obj [])
  let stats0 := JVal.pyOr s0 (.obj [])
  let hasS ← JVal.jmem "Statistics" result
  if !stats0.truthy && hasS then result.jindex (.str "Statistics")
  else pure stats0

/-- fetch_data.py lines 125 and 130-131, the same resolution for
runtimeStatistics and RuntimeStatistics. -/
def resolve_runtime (result : JVal) : Except String JVal := do
  let r0 ← result.dictGet "runtimeStatistics" (.obj [])
  let rts0 := JVal.pyOr r0 (.obj [])
  let hasR ← JVal.jmem "RuntimeStatistics" result
  if !rts0.truthy && hasR then result.jindex (.str "RuntimeStatistics")
  else pure rts0

/-- fetch_data.py line 135: charts resolved from the charts or Charts
entry, defaulting to an empty dict. -/
def resolve_charts (result : JVal) : Except String JVal := do
  let c1 ← result.dictGet "charts" (.obj [])
  let c2 ← if c1.truthy then pure c1 else result.dictGet "Charts" (.obj [])
  pure (JVal.pyOr c2 (.obj []))

/-- fetch_data.py lines 143-147: a dict point is reshaped into a dict
holding exactly x and y, read from x or X and y or Y with default the
integer 0; a non-dict point is skipped. -/
def mkPoint (point : JVal) : Option JVal :=
  match point with
  | .obj fs =>
    some (.obj [("x", JVal.getF fs "x" (JVal.getF fs "X" (.intg 0))),
                ("y", JVal.getF fs "y" (JVal.getF fs "Y" (.intg 0)))])
  | _ => none

/-- fetch_data.py line 138: the series dict of the Strategy Equity
chart, from its series or Series entry. -/
def series_of (sec : JVal) : Except String JVal := do
  let s1 ← sec.dictGet "series" (.obj [])
  if s1.truthy then pure s1 else sec.dictGet "Series" (.obj [])

/-- fetch_data.py line 141: the values list of the chosen series,
from its values or Values entry. -/
def values_of (sv : JVal) : Except String JVal := do
  let v1 ← sv.dictGet "values" (.arr [])
  if v1.truthy then pure v1 else sv.dictGet "Values" (.arr [])

/-- fetch_data.py lines 133-147: the equity curve.  It is built only
when the resolved charts contain a Strategy Equity entry; the series
used is Equity when that key is present, otherwise the first series
key produced by iteration, and nothing is produced when that key is
falsy (absent, or the empty string). -/
def equity_curve (result : JVal) : Except String (List JVal) := do
  let charts ← resolve_charts result
  let hasSE ← JVal.jmem "Strategy Equity" charts
  if hasSE then do
    let sec ← charts.jindex (.str "Strategy Equity")
    let equity_series ← series_of sec
    let hasEq ← JVal.jmem "Equity" equity_series
    let equity_key ← if hasEq then pure (JVal.str "Equity")
                     else JVal.pyNext equity_series
    if equity_key.truthy then do
      let sv ← equity_series.jindex equity_key
      let values ← values_of sv
      let pts ← JVal.pyIter values
      pure (pts.filterMap mkPoint)
    else pure []
  else pure []

/-- extract_performance_stats, fetch_data.py lines 122-170.  The
is_live argument is accepted and ignored, as in the source.  Results
whose shape would make Python raise an uncaught exception are error
values. -/
def extract_performance_stats (result : JVal) (is_live : Bool) :
    Except String JVal := do
  let stats ← resolve_stats result
  let rts ← resolve_runtime result
  let equity_data ← equity_curve result
  let trV ← orElseLazy (orElseLazy (stats.dictGet "Total Net Profit" .null)
      (fun _ => rts.dictGet "Total Net Profit" .null))
      (fun _ => stats.dictGet "Net Profit" .null)
  let shV ← stats.dictGet "Sharpe Ratio" .null
  let ddV ← orElseLazy (stats.dictGet "Drawdown" .null)
      (fun _ => stats.dictGet "Max Drawdown" .null)
  let wrV ← stats.dictGet "Win Rate" .null
  let pfV ← stats.dictGet "Profit-Loss Ratio" .null
  let ttV ← orElseLazy (orElseLazy (stats.dictGet "Total Trades" .null)
      (fun _ => stats.dictGet "Total Orders" .null))
      (fun _ => pure (.intg 0))
  let sdV ← orElseLazy (orElseLazy (result.dictGet "created" .null)
      (fun _ => result.dictGet "launched" .null))
      (fun _ => result.dictGet "Launched" .null)
  let edV ← orElseLazy (orElseLazy (result.dictGet "completed" .null)
      (fun _ => rts.dictGet "Updated" .null))
      (fun _ => result.dictGet "Stopped" .null)
  pure (.obj [
    ("totalReturn", .num (safe_float trV 0)),
    ("sharpeRatio", .num (safe_float shV 0)),
    ("maxDrawdown", .num (safe_float ddV 0)),
    ("winRate", .num (safe_float wrV 0)),
    ("profitFactor", .num (safe_float pfV 0)),
    ("totalTrades", .intg (truncQ (safe_float ttV 0))),
    ("equityCurve", .arr equity_data),
    ("startDate", sdV),
    ("endDate", edV)])

/-! The network layer.  A world function assigns to each endpoint the
outcome of the single HTTP exchange the script would perform against
it: a successful response whose body either parses as JSON or does
not, an HTTP error status, or a connection failure. -/

inductive FetchOutcome where
  | ok : Option JVal → FetchOutcome
  | httpError : Nat → String → FetchOutcome
  | urlError : String → FetchOutcome

/-- api_request, fetch_data.py lines 41-67.  HTTPError and URLError
are caught and turned into a success-False dict carrying an errors
list; a body that is not valid JSON makes json.loads raise
JSONDecodeError, which no except clause catches, so the exception
propagates.  Authentication headers and URL assembly do not affect
the returned value and are not modelled here. -/
def api_request (endpoint : String) (world : String → FetchOutcome) :
    Except String JVal :=
  match world endpoint with
  | .ok (some v) => .ok v
  | .ok none => .error "json.decoder.JSONDecodeError"
  | .httpError code reason =>
    .ok (.obj [("success", .bool false),
               ("errors", .arr [.str ("HTTP " ++ toString code ++ ": " ++ reason)])])
  | .urlError reason =>
    .ok (.obj [("success", .bool false), ("errors", .arr [.str reason])])

/-- Rendering of a value inside an f-string.  Project ids are JSON
integers and deploy or backtest ids are strings, which render as in
Python; floats and containers do not occur in the f-strings the
scripts build and are rendered approximately. -/
def jvalToString : JVal → String
  | .str s => s
  | .intg n => toString n
  | .bool b => if b then "True" else "False"
  | .null => "None"
  | .num q => toString q
  | .arr _ => "[...]"
  | .obj _ => "{...}"

/-- fetch_authenticate, fetch_data.py lines 70-73, paired with the
list of endpoints it requests.  It returns the success entry of the
response with default False. -/
def fetch_authenticate (world : String → FetchOutcome) :
    Except String JVal × List String :=
  ((do let r ← api_request "authenticate" world
       r.dictGet "success" (.bool false)),
   ["authenticate"])

/-- fetch_projects, fetch_data.py lines 76-82: an empty list when the
response is not a success, else the projects entry with default []. -/
def fetch_projects (world : String → FetchOutcome) :
    Except String JVal × List String :=
  ((do let r ← api_request "projects/read" world
       let s ← r.jget "success"
       if s.truthy then r.dictGet "projects" (.arr [])
       else pure (.arr [])),
   ["projects/read"])

/-- fetch_live_list, fetch_data.py lines 85-91: an empty list when
the response is not a success, else the live entry with default []. -/
def fetch_live_list (world : String → FetchOutcome) :
    Except String JVal × List String :=
  ((do let r ← api_request "live/list" world
       let s ← r.jget "success"
       if s.truthy then r.dictGet "live" (.arr [])
       else pure (.arr [])),
   ["live/list"])

/-- fetch_data.py line 103: the live entry, defaulting to the
LiveResults entry, defaulting to an empty dict. -/
def live_payload (r : JVal) : Except String JVal := do
  let d ← r.dictGet "LiveResults" (.obj [])
  r.dictGet "live" d

/-- The primary live-details endpoint of fetch_data.py line 96. -/
def live_details_ep1 (project_id deploy_id : JVal) : String :=
  "live/read&projectId=" ++ jvalToString project_id ++
    "&deployId=" ++ jvalToString deploy_id

/-- The alternative endpoint format of fetch_data.py line 99. -/
def live_details_ep2 (project_id : JVal) : String :=
  "live/read&projectId=" ++ jvalToString project_id

/-- fetch_live_details, fetch_data.py lines 94-103.  The first
request carries both projectId and deployId; when its result is not a
success a second request in the alternative format without deployId
is issued; when the final result is still not a success an empty dict
is returned, else its live payload.  The second component is the list
of endpoints requested, in order. -/
def fetch_live_details (project_id deploy_id : JVal)
    (world : String → FetchOutcome) : Except String JVal × List String :=
  let e1 := live_details_ep1 project_id deploy_id
  let e2 := live_details_ep2 project_id
  match api_request e1 world with
  | .error e => (.error e, [e1])
  | .ok r1 =>
    match r1.jget "success" with
    | .error e => (.error e, [e1])
    | .ok s1 =>
      if s1.truthy then (live_payload r1, [e1])
      else
        match api_request e2 world with
        | .error e => (.error e, [e1, e2])
        | .ok r2 =>
          match r2.jget "success" with
          | .error e => (.error e, [e1, e2])
          | .ok s2 =>
            if s2.truthy then (live_payload r2, [e1, e2])
            else (.ok (.obj []), [e1, e2])

/-- fetch_backtests, fetch_data.py lines 106-111: an empty list when
the response is not a success, else the backtests entry. -/
def fetch_backtests (project_id : JVal) (world : String → FetchOutcome) :
    Except String JVal × List String :=
  let e := "backtests/read&projectId=" ++ jvalToString project_id
  ((do let r ← api_request e world
       let s ← r.jget "success"
       if s.truthy then r.dictGet "backtests" (.arr [])
       else pure (.arr [])),
   [e])

/-- fetch_backtest_details, fetch_data.py lines 114-119: an empty
dict when the response is not a success, else the backtest entry. -/
def fetch_backtest_details (project_id backtest_id : JVal)
    (world : String → FetchOutcome) : Except String JVal × List String :=
  let e := "backtests/read&projectId=" ++ jvalToString project_id ++
           "&backtestId=" ++ jvalToString backtest_id
  ((do let r ← api_request e world
       let s ← r.jget "success"
       if s.truthy then r.dictGet "backtest" (.obj [])
       else pure (.obj [])),
   [e])

/-! The authentication header builder exists in three copies, one per
script.  The SHA-256 hex digest and base64 encoding are library
primitives, abstracted as function parameters; each copy is
transcribed from its own file. -/

namespace FetchData

/-- get_auth_headers, fetch_data.py lines 16-38.  The timestamp is
the integer Unix time rendered in decimal. -/
def get_auth_headers (sha256hex b64encode : String → String)
    (user_id api_token : String) (t : Nat) : List (String × String) :=
  let timestamp := toString t
  let hash_bytes := sha256hex (api_token ++ ":" ++ timestamp)
  let credentials := user_id ++ ":" ++ hash_bytes
  let encoded := b64encode credentials
  [("Timestamp", timestamp),
   ("Authorization", "Basic " ++ encoded),
   ("Content-Type", "application/json")]

end FetchData

namespace TestCredentials

/-- get_auth_headers, test_credentials.py lines 15-37. -/
def get_auth_headers (sha256hex b64encode : String → String)
    (user_id api_token : String) (t : Nat) : List (String × String) :=
  let timestamp := toString t
  let hash_bytes := sha256hex (api_token ++ ":" ++ timestamp)
  let credentials := user_id ++ ":" ++ hash_bytes
  let encoded := b64encode credentials
  [("Timestamp", timestamp),
   ("Authorization", "Basic " ++ encoded),
   ("Content-Type", "application/json")]

end TestCredentials

namespace DebugLiveData

/-- get_auth_headers, debug_live_data.py lines 16-25. -/
def get_auth_headers (sha256hex b64encode : String → String)
    (user_id api_token : String) (t : Nat) : List (String × String) :=
  let timestamp := toString t
  let hash_bytes := sha256hex (api_token ++ ":" ++ timestamp)
  let credentials := user_id ++ ":" ++ hash_bytes
  let encoded := b64encode credentials
  [("Timestamp", timestamp),
   ("Authorization", "Basic " ++ encoded),
   ("Content-Type", "application/json")]

end DebugLiveData

/-! Sorting.  fetch_data.py line 261 sorts the backtest records by
the string key x.get("created", "") with reverse=True.  Python sorted
is a stable sort; with reverse=True, equal keys keep their original
order.  Keys compare through the numeric tower when both are numeric
and as strings when both are strings; comparing a string with a
number, or values outside those shapes, raises TypeError, which the
guard in sort_by_created reproduces (for two or more elements Python
performs at least one comparison, so a heterogeneous key list always
raises). -/

/-- Strict key comparison: Python less-than on the comparable key
shapes (numeric tower, strings), false elsewhere. -/
def kLt (a b : JVal) : Bool :=
  match a.asNum, b.asNum with
  | some x, some y => decide (x < y)
  | _, _ =>
    match a, b with
    | .str s, .str t => decide (s < t)
    | _, _ => false

/-- Whether a key is a string. -/
def isStrKey : JVal → Bool
  | .str _ => true
  | _ => false

/-- Stable descending insertion of a keyed record: the new record
goes before the first element whose key is strictly smaller, hence
after every earlier record with an equal key. -/
def insortDesc (p : JVal × JVal) : List (JVal × JVal) → List (JVal × JVal)
  | [] => [p]
  | q :: qs => if kLt q.1 p.1 then p :: q :: qs else q :: insortDesc p qs

/-- Stable descending sort of keyed records. -/
def sortPairsDesc (ps : List (JVal × JVal)) : List (JVal × JVal) :=
  ps.foldl (fun acc p => insortDesc p acc) []

/-- Python sorted(backtests, key=lambda x: x.get("created", ""),
reverse=True) from fetch_data.py line 261.  Key extraction calls .get
on each record and raises AttributeError on a non-dict record; a key
list that is neither all-numeric nor all-string raises TypeError once
it has at least two elements. -/
def created_pairs : List JVal → Except String (List (JVal × JVal))
  | [] => .ok []
  | x :: rest => do
    let k ← x.dictGet "created" (.str "")
    let ps ← created_pairs rest
    pure ((k, x) :: ps)

def sort_by_created (bts : List JVal) : Except String (List JVal) := do
  let pairs ← created_pairs bts
  if pairs.length ≤ 1 || pairs.all (fun p => (p.1.asNum).isSome)
      || pairs.all (fun p => isStrKey p.1) then
    pure ((sortPairsDesc pairs).map Prod.snd)
  else .error "TypeError: incomparable sort keys"

/-- The body of the backtest loop, fetch_data.py lines 262-269: a
record with a truthy backtestId that is marked completed has its
details fetched; truthy details are extracted and annotated with the
backtest name and id.  The result is the entry appended to the
project backtests, or none when the record is skipped. -/
def process_backtest_entry (project_id : JVal)
    (world : String → FetchOutcome) (bt : JVal) :
    Except String (Option JVal) := do
  let bt_id ← bt.jget "backtestId"
  if bt_id.truthy then do
    let comp ← bt.jget "completed"
    if comp.truthy then do
      let details ← (fetch_backtest_details project_id bt_id world).1
      if details.truthy then do
        let stats ← extract_performance_stats details false
        let nm ← bt.dictGet "name" (.str "Unnamed Backtest")
        pure (some ((stats.jset "name" nm).jset "id" bt_id))
      else pure none
    else pure none
  else pure none

/-- The backtest loop over a record list, in order. -/
def process_backtests (project_id : JVal) (world : String → FetchOutcome) :
    List JVal → Except String (List JVal)
  | [] => .ok []
  | bt :: rest => do
    let e ← process_backtest_entry project_id world bt
    let others ← process_backtests project_id world rest
    match e with
    | some x => pure (x :: others)
    | none => pure others

/-- fetch_data.py line 261: the processed entries come from the first
three records of the descending-sorted backtest list. -/
def backtest_entries (project_id : JVal) (world : String → FetchOutcome)
    (bts : List JVal) : Except String (List JVal) := do
  let sorted ← sort_by_created bts
  process_backtests project_id world (sorted.take 3)

/-- The fallback live record of fetch_data.py lines 230-238, used
when the live details are falsy. -/
def default_live (status deploy_id : JVal) : JVal :=
  .obj [("status", status), ("deployId", deploy_id),
        ("totalReturn", .intg 0), ("sharpeRatio", .intg 0),
        ("maxDrawdown", .intg 0), ("winRate", .intg 0),
        ("equityCurve", .arr [])]

/-- The live record built on successful detail extraction,
fetch_data.py lines 225-227: the extracted stats annotated with the
list status and the deploy id. -/
def live_record (stats status deploy_id : JVal) : JVal :=
  (stats.jset "status" status).jset "deployId" deploy_id

/-- fetch_data.py lines 224-238: the live field value, extracted and
annotated when the details are truthy, the fallback record
otherwise. -/
def live_value (ld status deploy : JVal) : Except String JVal :=
  if ld.truthy then
    (extract_performance_stats ld true).map
      (fun stats => live_record stats status deploy)
  else pure (default_live status deploy)

/-- The live-algorithm loop of fetch_data.py lines 206-240, threading
the set of live project ids and the project list.  An algorithm with
a falsy projectId contributes nothing.  The membership test on the id
set uses Python equality. -/
def process_live (world : String → FetchOutcome) :
    List JVal → List JVal → List JVal →
    Except String (List JVal × List JVal)
  | [], ids, projs => .ok (ids, projs)
  | algo :: rest, ids, projs => do
    let pid ← algo.jget "projectId"
    if pid.truthy then do
      let ids1 := if ids.any (jeq pid) then ids else ids ++ [pid]
      let pname ← algo.dictGet "projectName"
        (.str ("Project " ++ jvalToString pid))
      let deploy ← algo.dictGet "deployId" (.str "")
      let ld ← (fetch_live_details pid deploy world).1
      let status ← algo.dictGet "status" (.str "Unknown")
      let live_val ← live_value ld status deploy
      process_live world rest ids1
        (projs ++ [JVal.obj [("id", pid), ("name", pname),
                             ("backtests", .arr []), ("live", live_val)]])
    else process_live world rest ids projs

/-- The backtest-project loop of fetch_data.py lines 245-272.  A
project already processed as live is skipped; a project whose entry
list comes out empty is not appended. -/
def process_projects (world : String → FetchOutcome) (ids : List JVal) :
    List JVal → List JVal → Except String (List JVal)
  | [], acc => .ok acc
  | project :: rest, acc => do
    let pid ← project.jindex (.str "projectId")
    if ids.any (jeq pid) then process_projects world ids rest acc
    else do
      let pname ← project.dictGet "name"
        (.str ("Project " ++ jvalToString pid))
      let btv ← (fetch_backtests pid world).1
      let bts ← btv.pyIter
      let entries ← backtest_entries pid world bts
      let acc1 :=
        if entries.isEmpty then acc
        else acc ++ [JVal.obj [("id", pid), ("name", pname),
                               ("backtests", .arr entries), ("live", .null)]]
      process_projects world ids rest acc1

/-- Truthiness of an optional environment variable: absent and empty
values are falsy under the credential check of fetch_data.py line
179 and the branch condition of line 243. -/
def envTruthy : Option String → Bool
  | none => false
  | some s => !s.isEmpty

/-- os.path.join as used on fetch_data.py line 275. -/
def ospJoin (a b : String) : String :=
  if a.isEmpty then b else a ++ "/" ++ b

/-- The output path of fetch_data.py line 275: a fixed path relative
to the directory containing the script. -/
def output_path (scriptDir : String) : String :=
  ospJoin (ospJoin scriptDir "data") "dashboard.json"

/-- How a run of main terminates: sys.exit with a status code, an
uncaught exception, or normal completion writing a document to a
path. -/
inductive RunResult where
  | exited : Nat → RunResult
  | crashed : String → RunResult
  | finished : String → JVal → RunResult

/-- The project-collection phase of main, fetch_data.py lines
200-272: the live list is fetched, printed with len (which raises on
unsized values) and iterated; afterwards, unless QC_PROJECT_ID is
set, every project not already covered by a live algorithm has its
backtests processed. -/
def build_projects (project_id : Option String)
    (world : String → FetchOutcome) : Except String (List JVal) := do
  let la ← (fetch_live_list world).1
  let _ ← la.pyLen
  let algos ← la.pyIter
  let (ids, liveProjs) ← process_live world algos [] []
  if !(envTruthy project_id) then do
    let pv ← (fetch_projects world).1
    let prList ← pv.pyIter
    let btProjs ← process_projects world ids prList []
    pure (liveProjs ++ btProjs)
  else pure liveProjs

/-- main, fetch_data.py lines 173-287.  Credentials come from the
environment; now is the ISO timestamp datetime.utcnow().isoformat()
would return, and scriptDir the directory of the script.  Missing or
empty credentials exit with status 1, as does a failed
authentication; an uncaught exception anywhere aborts the run; an
ordinary run writes the dashboard document to the fixed output
path. -/
def FetchData.main (user_id api_token project_id : Option String)
    (scriptDir now : String) (world : String → FetchOutcome) : RunResult :=
  if !(envTruthy user_id) || !(envTruthy api_token) then .exited 1
  else
    match (fetch_authenticate world).1 with
    | .error e => .crashed e
    | .ok av =>
      if !av.truthy then .exited 1
      else
        match build_projects project_id world with
        | .error e => .crashed e
        | .ok projs =>
          .finished (output_path scriptDir)
            (.obj [("generated", .str (now ++ "Z")),
                   ("projects", .arr projs)])

/-! Helper lemmas for symbolic evaluation of the extraction
pipeline. -/

theorem ebind_ok {α β : Type} (a : α) (f : α → Except String β) :
    (Except.ok a >>= f : Except String β) = f a := rfl

theorem orElseLazy_ok (a : JVal) (f : Unit → Except String JVal) :
    orElseLazy (.ok a) f = if a.truthy then .ok a else f () := rfl

theorem orElseLazy_ok_ok (a b : JVal) :
    orElseLazy (.ok a) (fun _ => .ok b) = .ok (a.pyOr b) := by
  rw [orElseLazy_ok, JVal.pyOr]
  split <;> rfl

/-- The value of a statistics key as safe_float sees it: the entry
when present, None when absent. -/
def statLookup (fs : List (String × JVal)) (k : String) : JVal :=
  JVal.getF fs k .null

/-- The source expression of the totalReturn field, fetch_data.py
line 161. -/
def totalReturnSrc (fs rfs : List (String × JVal)) : JVal :=
  ((statLookup fs "Total Net Profit").pyOr
    (statLookup rfs "Total Net Profit")).pyOr (statLookup fs "Net Profit")

/-- The source expression of the maxDrawdown field, line 163. -/
def maxDrawdownSrc (fs : List (String × JVal)) : JVal :=
  (statLookup fs "Drawdown").pyOr (statLookup fs "Max Drawdown")

/-- The source expression of the totalTrades field, line 166. -/
def totalTradesSrc (fs : List (String × JVal)) : JVal :=
  ((statLookup fs "Total Trades").pyOr
    (statLookup fs "Total Orders")).pyOr (.intg 0)

theorem dictGet_pyOr_empty (fs : List (String × JVal)) (k : String) :
    ((JVal.pyOr (.obj fs) (.obj [])).dictGet k .null) = .ok (statLookup fs k) := by
  cases fs <;>
    simp [JVal.pyOr, JVal.truthy, JVal.dictGet, statLookup, JVal.getF]


theorem pure_ok {α : Type} (a : α) :
    (pure a : Except String α) = .ok a := rfl

theorem emap_ok {α β : Type} (f : α → β) (a : α) :
    (f <$> (Except.ok a : Except String α)) = .ok (f a) := rfl

/-- Evaluation of extract_performance_stats on a result holding only
statistics and runtimeStatistics dicts: every output field is the
safe_float image of its source chain, the equity curve is empty and
startDate is None. -/
theorem extract_on_stats (fs rfs : List (String × JVal)) (l : Bool) :
    extract_performance_stats
      (.obj [("statistics", .obj fs), ("runtimeStatistics", .obj rfs)]) l =
    .ok (.obj [
      ("totalReturn", .num (safe_float (totalReturnSrc fs rfs) 0)),
      ("sharpeRatio", .num (safe_float (statLookup fs "Sharpe Ratio") 0)),
      ("maxDrawdown", .num (safe_float (maxDrawdownSrc fs) 0)),
      ("winRate", .num (safe_float (statLookup fs "Win Rate") 0)),
      ("profitFactor", .num (safe_float (statLookup fs "Profit-Loss Ratio") 0)),
      ("totalTrades", .intg (truncQ (safe_float (totalTradesSrc fs) 0))),
      ("equityCurve", .arr []),
      ("startDate", .null),
      ("endDate", (statLookup rfs "Updated").pyOr .null)]) := by
  have hs : resolve_stats
      (.obj [("statistics", .obj fs), ("runtimeStatistics", .obj rfs)]) =
      .ok (JVal.pyOr (.obj fs) (.obj [])) := by
    cases fs <;> rfl
  have hr : resolve_runtime
      (.obj [("statistics", .obj fs), ("runtimeStatistics", .obj rfs)]) =
      .ok (JVal.pyOr (.obj rfs) (.obj [])) := by
    cases rfs <;> rfl
  have hc : equity_curve
      (.obj [("statistics", .obj fs), ("runtimeStatistics", .obj rfs)]) =
      .ok [] := rfl
  have hg : ∀ k : String,
      (JVal.obj [("statistics", .obj fs), ("runtimeStatistics", .obj rfs)]).dictGet
        k .null = .ok (JVal.getF [("statistics", JVal.obj fs),
          ("runtimeStatistics", JVal.obj rfs)] k .null) := fun _ => rfl
  simp only [extract_performance_stats, hs, hr, hc, hg, ebind_ok, pure_ok,
    emap_ok, dictGet_pyOr_empty, orElseLazy_ok_ok]
  have hnull : ∀ k : String, k ≠ "statistics" → k ≠ "runtimeStatistics" →
      JVal.getF [("statistics", JVal.obj fs),
        ("runtimeStatistics", JVal.obj rfs)] k .null = .null := by
    intro k h1 h2
    have b1 : (k == "statistics") = false := beq_eq_false_iff_ne.mpr h1
    have b2 : (k == "runtimeStatistics") = false := beq_eq_false_iff_ne.mpr h2
    simp [JVal.getF, List.lookup, b1, b2]
  rw [hnull "created" (by decide) (by decide),
    hnull "launched" (by decide) (by decide),
    hnull "Launched" (by decide) (by decide),
    hnull "completed" (by decide) (by decide),
    hnull "Stopped" (by decide) (by decide)]
  simp only [totalReturnSrc, maxDrawdownSrc, totalTradesSrc]
  rfl

/-- The ordered key list of every successfully extracted record. -/
def extractKeys : List String :=
  ["totalReturn", "sharpeRatio", "maxDrawdown", "winRate", "profitFactor",
   "totalTrades", "equityCurve", "startDate", "endDate"]

/-- Whenever extract_performance_stats returns a record at all, that
record is a dict with exactly the nine keys of extractKeys, in
order. -/
theorem extract_keys_of_ok (r : JVal) (l : Bool) (out : JVal)
    (h : extract_performance_stats r l = .ok out) :
    out.jkeys = extractKeys := by
  unfold extract_performance_stats at h
  simp only [bind, Except.bind, pure, Except.pure, Functor.map,
    Except.map] at h
  repeat' split at h
  all_goals first
    | (injection h with h; subst h; rfl)
    | simp_all [JVal.jkeys, extractKeys, Except.map, Except.pure]

/-- The record literal returned by extract_performance_stats, for
stating lookups. -/
def outRecord (a b c d e : ℚ) (g : Int) (h : List JVal) (i j : JVal) : JVal :=
  .obj [("totalReturn", .num a), ("sharpeRatio", .num b),
    ("maxDrawdown", .num c), ("winRate", .num d), ("profitFactor", .num e),
    ("totalTrades", .intg g), ("equityCurve", .arr h), ("startDate", i),
    ("endDate", j)]

theorem jlookup_totalReturn (a b c d e : ℚ) (g : Int) (h : List JVal)
    (i j : JVal) :
    (outRecord a b c d e g h i j).jlookup "totalReturn" = some (.num a) := rfl

theorem jlookup_sharpeRatio (a b c d e : ℚ) (g : Int) (h : List JVal)
    (i j : JVal) :
    (outRecord a b c d e g h i j).jlookup "sharpeRatio" = some (.num b) := rfl

theorem jlookup_maxDrawdown (a b c d e : ℚ) (g : Int) (h : List JVal)
    (i j : JVal) :
    (outRecord a b c d e g h i j).jlookup "maxDrawdown" = some (.num c) := rfl

theorem jlookup_winRate (a b c d e : ℚ) (g : Int) (h : List JVal)
    (i j : JVal) :
    (outRecord a b c d e g h i j).jlookup "winRate" = some (.num d) := rfl

theorem jlookup_profitFactor (a b c d e : ℚ) (g : Int) (h : List JVal)
    (i j : JVal) :
    (outRecord a b c d e g h i j).jlookup "profitFactor" = some (.num e) := rfl

theorem jlookup_totalTrades (a b c d e : ℚ) (g : Int) (h : List JVal)
    (i j : JVal) :
    (outRecord a b c d e g h i j).jlookup "totalTrades" = some (.intg g) := rfl

theorem jlookup_equityCurve (a b c d e : ℚ) (g : Int) (h : List JVal)
    (i j : JVal) :
    (outRecord a b c d e g h i j).jlookup "equityCurve" = some (.arr h) := rfl

theorem extract_on_stats_rec (fs rfs : List (String × JVal)) (l : Bool) :
    extract_performance_stats
      (.obj [("statistics", .obj fs), ("runtimeStatistics", .obj rfs)]) l =
    .ok (outRecord (safe_float (totalReturnSrc fs rfs) 0)
      (safe_float (statLookup fs "Sharpe Ratio") 0)
      (safe_float (maxDrawdownSrc fs) 0)
      (safe_float (statLookup fs "Win Rate") 0)
      (safe_float (statLookup fs "Profit-Loss Ratio") 0)
      (truncQ (safe_float (totalTradesSrc fs) 0))
      [] .null ((statLookup rfs "Updated").pyOr .null)) :=
  extract_on_stats fs rfs l

theorem safe_float_of_none (v : JVal) (d : ℚ) (h : floatCoerce v = none) :
    safe_float v d = d := by
  rw [safe_float, h]
  rfl

theorem truncQ_zero : truncQ 0 = 0 := by
  simp [truncQ]

/-- C1: a statistics value that is missing, None, or that fails float
coercion makes the corresponding extracted field the default 0.0, and
totalTrades the integer 0. -/
theorem claim_C1_defaults (fs rfs : List (String × JVal)) (l : Bool) :
    ∃ out, extract_performance_stats
      (.obj [("statistics", .obj fs), ("runtimeStatistics", .obj rfs)]) l =
        .ok out
    ∧ (floatCoerce (totalReturnSrc fs rfs) = none →
        out.jlookup "totalReturn" = some (.num 0))
    ∧ (floatCoerce (statLookup fs "Sharpe Ratio") = none →
        out.jlookup "sharpeRatio" = some (.num 0))
    ∧ (floatCoerce (maxDrawdownSrc fs) = none →
        out.jlookup "maxDrawdown" = some (.num 0))
    ∧ (floatCoerce (statLookup fs "Win Rate") = none →
        out.jlookup "winRate" = some (.num 0))
    ∧ (floatCoerce (statLookup fs "Profit-Loss Ratio") = none →
        out.jlookup "profitFactor" = some (.num 0))
    ∧ (floatCoerce (totalTradesSrc fs) = none →
        out.jlookup "totalTrades" = some (.intg 0))
    ∧ (statLookup fs "Total Trades" = .null →
        statLookup fs "Total Orders" = .null →
        out.jlookup "totalTrades" = some (.intg 0)) := by
  refine ⟨_, extract_on_stats_rec fs rfs l, ?_, ?_, ?_, ?_, ?_, ?_, ?_⟩
  all_goals intro h
  · rw [jlookup_totalReturn, safe_float_of_none _ _ h]
  · rw [jlookup_sharpeRatio, safe_float_of_none _ _ h]
  · rw [jlookup_maxDrawdown, safe_float_of_none _ _ h]
  · rw [jlookup_winRate, safe_float_of_none _ _ h]
  · rw [jlookup_profitFactor, safe_float_of_none _ _ h]
  · rw [jlookup_totalTrades, safe_float_of_none _ _ h, truncQ_zero]
  · intro h2
    have hsrc : totalTradesSrc fs = .intg 0 := by
      rw [totalTradesSrc, h, h2]
      rfl
    rw [jlookup_totalTrades, hsrc]
    simp [safe_float, floatCoerce, truncQ]

/-- C1 witness: a statistics dict whose Sharpe Ratio is an
unparseable string, whose Win Rate is a list, whose Profit-Loss Ratio
is None and whose trade counters are absent yields the documented
defaults in every field. -/
theorem claim_C1_defaults_witness :
    (∃ out, extract_performance_stats
      (.obj [("statistics", .obj [("Sharpe Ratio", .str "abc"),
        ("Win Rate", .arr [.intg 3]), ("Profit-Loss Ratio", .null)]),
        ("runtimeStatistics", .obj [])]) false = .ok out
    ∧ out.jlookup "totalReturn" = some (.num 0)
    ∧ out.jlookup "sharpeRatio" = some (.num 0)
    ∧ out.jlookup "maxDrawdown" = some (.num 0)
    ∧ out.jlookup "winRate" = some (.num 0)
    ∧ out.jlookup "profitFactor" = some (.num 0)
    ∧ out.jlookup "totalTrades" = some (.intg 0))
    ∧ (∃ out2, extract_performance_stats
      (.obj [("statistics", .obj [("Total Trades", .str "x")]),
        ("runtimeStatistics", .obj [])]) false = .ok out2
    ∧ out2.jlookup "totalTrades" = some (.intg 0)) := by
  constructor
  · obtain ⟨out, h0, h1, h2, h3, h4, h5, h6, h7⟩ :=
      claim_C1_defaults [("Sharpe Ratio", .str "abc"),
        ("Win Rate", .arr [.intg 3]), ("Profit-Loss Ratio", .null)] [] false
    exact ⟨out, h0, h1 (by decide), h2 (by decide), h3 (by decide),
      h4 (by decide), h5 (by decide), h7 (by rfl) (by rfl)⟩
  · obtain ⟨out2, h0, h1, h2, h3, h4, h5, h6, h7⟩ :=
      claim_C1_defaults [("Total Trades", .str "x")] [] false
    exact ⟨out2, h0, h6 (by decide)⟩

theorem statLookup_skip_sharpe (fs : List (String × JVal)) (w : JVal)
    (k : String) (hk : (k == "sharpe") = false) :
    statLookup (("sharpe", w) :: fs) k = statLookup fs k := by
  simp [statLookup, JVal.getF, List.lookup, hk]

/-- C7 counterexample: a statistics dict that stores the ratio only
under the key sharpe yields sharpeRatio 0.0, not the stored value
2.5, so the output is not taken from the sharpe entry. -/
theorem claim_C7_counterexample :
    (∃ out, extract_performance_stats
      (.obj [("statistics", .obj [("sharpe", .str "2.5")]),
        ("runtimeStatistics", .obj [])]) false = .ok out
      ∧ out.jlookup "sharpeRatio" = some (.num 0))
    ∧ safe_float (.str "2.5") 0 = 5 / 2
    ∧ (0 : ℚ) ≠ 5 / 2 := by
  refine ⟨⟨_, extract_on_stats_rec [("sharpe", .str "2.5")] [] false, ?_⟩, ?_, by norm_num⟩
  · rw [jlookup_sharpeRatio]
    rfl
  · show (parseFloat (cleanChars "2.5".toList)).getD 0 = 5 / 2
    have h : cleanChars "2.5".toList = ['2', '.', '5'] := by decide
    rw [h]
    show (some ((1 : ℚ) * ((digitsVal ['2'] : ℚ) +
      (digitsVal ['5'] : ℚ) / 10 ^ (['5'] : List Char).length))).getD 0 = 5 / 2
    have h2 : digitsVal ['2'] = 2 := by decide
    have h5 : digitsVal ['5'] = 5 := by decide
    rw [h2, h5]
    norm_num

/-- C7 amended: the sharpeRatio output is computed by safe_float from
the statistics value stored under the key "Sharpe Ratio" only; an
entry under the key "sharpe" is ignored, whatever its value. -/
theorem claim_C7_sharpe_key_only (fs rfs : List (String × JVal)) (l : Bool)
    (w : JVal) :
    (∃ out, extract_performance_stats
      (.obj [("statistics", .obj fs), ("runtimeStatistics", .obj rfs)]) l =
        .ok out
      ∧ out.jlookup "sharpeRatio" =
          some (.num (safe_float (statLookup fs "Sharpe Ratio") 0)))
    ∧ (∃ out2, extract_performance_stats
      (.obj [("statistics", .obj (("sharpe", w) :: fs)),
        ("runtimeStatistics", .obj rfs)]) l = .ok out2
      ∧ out2.jlookup "sharpeRatio" =
          some (.num (safe_float (statLookup fs "Sharpe Ratio") 0))) := by
  constructor
  · exact ⟨_, extract_on_stats_rec fs rfs l, jlookup_sharpeRatio _ _ _ _ _ _ _ _ _⟩
  · refine ⟨_, extract_on_stats_rec (("sharpe", w) :: fs) rfs l, ?_⟩
    rw [jlookup_sharpeRatio, statLookup_skip_sharpe fs w _ (by decide)]

theorem jsetF_keys (fs : List (String × JVal)) (k : String) (v : JVal) :
    (JVal.jsetF fs k v).map Prod.fst =
      if k ∈ fs.map Prod.fst then fs.map Prod.fst
      else fs.map Prod.fst ++ [k] := by
  induction fs with
  | nil => simp [JVal.jsetF]
  | cons p rest ih =>
    obtain ⟨k0, v0⟩ := p
    by_cases hp : k0 = k
    · subst hp
      simp [JVal.jsetF]
    · simp only [JVal.jsetF, if_neg hp, List.map_cons, List.mem_cons, ih]
      by_cases hm : k ∈ rest.map Prod.fst
      · rw [if_pos hm, if_pos (Or.inr hm)]
      · rw [if_neg hm, if_neg (fun h => h.elim (fun h1 => hp h1.symm) hm)]
        rfl

theorem jset_keys_of_keys (v : JVal) (ks : List String) (k : String)
    (hv : v.jkeys = ks) (hobj : ∃ fs, v = .obj fs) (hk : ¬ k ∈ ks)
    (x : JVal) : (v.jset k x).jkeys = ks ++ [k] := by
  obtain ⟨fs, rfl⟩ := hobj
  simp only [JVal.jkeys] at hv
  simp only [JVal.jset, JVal.jkeys, jsetF_keys, hv, if_neg hk]

/-- C4 counterexample: the fallback live record carries the keys
status and deployId but not totalTrades or profitFactor, and a
successfully extracted record carries startDate, which is outside the
documented seven-key set. -/
theorem claim_C4_counterexample :
    (default_live (.str "Running") (.str "dep")).jkeys =
      ["status", "deployId", "totalReturn", "sharpeRatio", "maxDrawdown",
       "winRate", "equityCurve"]
    ∧ ¬ "totalTrades" ∈ (default_live (.str "Running") (.str "dep")).jkeys
    ∧ ¬ "profitFactor" ∈ (default_live (.str "Running") (.str "dep")).jkeys
    ∧ (∃ out, extract_performance_stats (.obj []) false = .ok out
        ∧ "startDate" ∈ out.jkeys
        ∧ ¬ "startDate" ∈ ["totalReturn", "sharpeRatio", "maxDrawdown",
            "winRate", "totalTrades", "profitFactor", "equityCurve"]) := by
  refine ⟨rfl, by decide, by decide, ⟨_, rfl, ?_, by decide⟩⟩
  show "startDate" ∈ extractKeys
  decide

/-- C4 amended: every successfully extracted record has exactly the
nine keys totalReturn, sharpeRatio, maxDrawdown, winRate,
profitFactor, totalTrades, equityCurve, startDate, endDate in order;
a live record built from extracted stats additionally carries status
and deployId; the fallback live record has exactly status, deployId,
totalReturn, sharpeRatio, maxDrawdown, winRate, equityCurve. -/
theorem claim_C4_record_keys :
    (∀ r l out, extract_performance_stats r l = .ok out →
      out.jkeys = extractKeys)
    ∧ (∀ st dp, (default_live st dp).jkeys =
        ["status", "deployId", "totalReturn", "sharpeRatio", "maxDrawdown",
         "winRate", "equityCurve"])
    ∧ (∀ stats st dp, stats.jkeys = extractKeys → (∃ fs, stats = .obj fs) →
        (live_record stats st dp).jkeys =
          extractKeys ++ ["status", "deployId"]) := by
  refine ⟨extract_keys_of_ok, fun _ _ => rfl, fun stats st dp hk hobj => ?_⟩
  rw [live_record]
  have h1 : (stats.jset "status" st).jkeys = extractKeys ++ ["status"] :=
    jset_keys_of_keys stats extractKeys "status" hk hobj (by decide) st
  have hobj2 : ∃ fs, stats.jset "status" st = .obj fs := by
    obtain ⟨fs, rfl⟩ := hobj
    exact ⟨_, rfl⟩
  have h2 := jset_keys_of_keys _ _ "deployId" h1 hobj2 (by decide) dp
  rw [h2]
  rfl

/-- C4 witness: the record extracted from an empty result has the
nine keys, and annotating it as a live record appends status and
deployId. -/
theorem claim_C4_record_keys_witness :
    (JVal.obj [("totalReturn", .num 0), ("sharpeRatio", .num 0),
      ("maxDrawdown", .num 0), ("winRate", .num 0), ("profitFactor", .num 0),
      ("totalTrades", .intg 0), ("equityCurve", .arr []),
      ("startDate", .null), ("endDate", .null)]).jkeys = extractKeys
    ∧ (live_record (JVal.obj [("totalReturn", .num 0), ("sharpeRatio", .num 0),
        ("maxDrawdown", .num 0), ("winRate", .num 0), ("profitFactor", .num 0),
        ("totalTrades", .intg 0), ("equityCurve", .arr []),
        ("startDate", .null), ("endDate", .null)])
        (.str "Running") (.str "dep")).jkeys =
      extractKeys ++ ["status", "deployId"] :=
  ⟨claim_C4_record_keys.1 (.obj []) false _ rfl,
   claim_C4_record_keys.2.2 _ (.str "Running") (.str "dep")
     (claim_C4_record_keys.1 (.obj []) false _ rfl) ⟨_, rfl⟩⟩

theorem mem_pyStrip (c : Char) (cs : List Char) (h : c ∈ pyStrip cs) :
    c ∈ cs := by
  rw [pyStrip] at h
  rw [List.mem_reverse] at h
  have h2 := List.dropWhile_subset (p := isPySpace) h
  rw [List.mem_reverse] at h2
  exact List.dropWhile_subset (p := isPySpace) h2

theorem mem_cleanChars (c : Char) (s : List Char) (h : c ∈ cleanChars s) :
    c ∈ s ∧ c ≠ '%' ∧ c ≠ '$' ∧ c ≠ ',' := by
  rw [cleanChars] at h
  have h2 := mem_pyStrip c _ h
  rw [List.mem_filter] at h2
  obtain ⟨hm, hp⟩ := h2
  simp only [Bool.not_eq_true', Bool.or_eq_false_iff, beq_eq_false_iff_ne] at hp
  exact ⟨hm, hp.1.1, hp.1.2, hp.2⟩

theorem safe_float_55pct : safe_float (.str "55%") 0 = 55 := by
  show (parseFloat (cleanChars "55%".toList)).getD 0 = 55
  have h : cleanChars "55%".toList = ['5', '5'] := by decide
  rw [h]
  show (some ((1 : ℚ) * ((digitsVal ['5', '5'] : ℚ) +
    (digitsVal [] : ℚ) / 10 ^ ([] : List Char).length))).getD 0 = 55
  have h2 : digitsVal ['5', '5'] = 55 := by decide
  have h3 : digitsVal [] = 0 := rfl
  rw [h2, h3]
  norm_num

theorem safe_float_spaced_55pct : safe_float (.str " 55% ") 0 = 55 := by
  show (parseFloat (cleanChars " 55% ".toList)).getD 0 = 55
  have h : cleanChars " 55% ".toList = ['5', '5'] := by decide
  rw [h]
  show (some ((1 : ℚ) * ((digitsVal ['5', '5'] : ℚ) +
    (digitsVal [] : ℚ) / 10 ^ ([] : List Char).length))).getD 0 = 55
  have h2 : digitsVal ['5', '5'] = 55 := by decide
  have h3 : digitsVal [] = 0 := rfl
  rw [h2, h3]
  norm_num

theorem safe_float_dollar : safe_float (.str "$1,234.50") 0 = 1234.5 := by
  show (parseFloat (cleanChars "$1,234.50".toList)).getD 0 = 1234.5
  have h : cleanChars "$1,234.50".toList = ['1', '2', '3', '4', '.', '5', '0'] := by
    decide
  rw [h]
  show (some ((1 : ℚ) * ((digitsVal ['1', '2', '3', '4'] : ℚ) +
    (digitsVal ['5', '0'] : ℚ) / 10 ^ (['5', '0'] : List Char).length))).getD 0 =
    1234.5
  have h2 : digitsVal ['1', '2', '3', '4'] = 1234 := by decide
  have h3 : digitsVal ['5', '0'] = 50 := by decide
  rw [h2, h3]
  norm_num

/-- C9: safe_float removes every percent, dollar and comma character
from a string and trims whitespace before conversion, so
percentage-formatted strings map to their face value: a Win Rate of
"55%" extracts as winRate 55.0 rather than 0.55, and "$1,234.50"
converts to 1234.5. -/
theorem claim_C9_string_cleaning :
    (∀ s : String, ∀ c ∈ cleanChars s.toList,
      c ≠ '%' ∧ c ≠ '$' ∧ c ≠ ',')
    ∧ (∀ s : String,
        safe_float (.str s) 0 = (parseFloat (cleanChars s.toList)).getD 0)
    ∧ safe_float (.str "55%") 0 = 55
    ∧ safe_float (.str " 55% ") 0 = 55
    ∧ safe_float (.str "$1,234.50") 0 = 1234.5
    ∧ (∃ out, extract_performance_stats
        (.obj [("statistics", .obj [("Win Rate", .str "55%")]),
          ("runtimeStatistics", .obj [])]) false = .ok out
      ∧ out.jlookup "winRate" = some (.num 55))
    ∧ (55 : ℚ) ≠ 0.55 := by
  refine ⟨fun s c h => (mem_cleanChars c _ h).2, fun s => rfl,
    safe_float_55pct, safe_float_spaced_55pct, safe_float_dollar,
    ⟨_, extract_on_stats_rec [("Win Rate", .str "55%")] [] false, ?_⟩,
    by norm_num⟩
  rw [jlookup_winRate]
  have h : statLookup [("Win Rate", .str "55%")] "Win Rate" = .str "55%" := rfl
  rw [h, safe_float_55pct]

/-- C9 witness: the character 5 survives the cleaning of "5%" and is
none of the stripped characters. -/
theorem claim_C9_string_cleaning_witness :
    '5' ∈ cleanChars "5%".toList ∧
    ('5' ≠ '%' ∧ '5' ≠ '$' ∧ '5' ≠ ',') :=
  ⟨by decide, claim_C9_string_cleaning.1 "5%" '5' (by decide)⟩

/-- C2: for every user id, token and call timestamp, the header map
carries the decimal timestamp and a Basic authorization built as
base64 of userId, a colon, and the hex SHA-256 of token, colon,
timestamp; all three copies of get_auth_headers in the repository
compute the same function. -/
theorem claim_C2_auth_headers (sha256hex b64encode : String → String)
    (u k : String) (t : Nat) :
    (FetchData.get_auth_headers sha256hex b64encode u k t).lookup "Timestamp" =
      some (toString t)
    ∧ (FetchData.get_auth_headers sha256hex b64encode u k t).lookup
        "Authorization" =
        some ("Basic " ++ b64encode (u ++ ":" ++ sha256hex (k ++ ":" ++ toString t)))
    ∧ TestCredentials.get_auth_headers sha256hex b64encode u k t =
        FetchData.get_auth_headers sha256hex b64encode u k t
    ∧ DebugLiveData.get_auth_headers sha256hex b64encode u k t =
        FetchData.get_auth_headers sha256hex b64encode u k t :=
  ⟨rfl, rfl, rfl, rfl⟩

/-- A chart payload whose only series is named by the empty string:
the first series exists but its key is falsy. -/
def emptyNameSeriesResult : JVal :=
  .obj [("charts", .obj [("Strategy Equity", .obj [("series",
    .obj [("", .obj [("values",
      .arr [.obj [("x", .intg 1), ("y", .intg 2)]])])])])])]

/-- C10 counterexample: a Strategy Equity chart whose only series has
the empty string for its name produces an empty equityCurve, although
a first series exists and its values hold a dict point that the
claimed mapping would keep. -/
theorem claim_C10_counterexample :
    equity_curve emptyNameSeriesResult = .ok []
    ∧ [JVal.obj [("x", .intg 1), ("y", .intg 2)]].filterMap mkPoint =
        [JVal.obj [("x", .intg 1), ("y", .intg 2)]]
    ∧ (∃ out, extract_performance_stats emptyNameSeriesResult false = .ok out
        ∧ out.jlookup "equityCurve" = some (.arr []))
    ∧ ([] : List JVal) ≠ [JVal.obj [("x", .intg 1), ("y", .intg 2)]] := by
  exact ⟨rfl, rfl, ⟨_, rfl, rfl⟩, by simp⟩

theorem extract_equity_of_ok (r : JVal) (l : Bool) (out : JVal)
    (h : extract_performance_stats r l = .ok out) :
    ∃ ec, equity_curve r = .ok ec
      ∧ out.jlookup "equityCurve" = some (.arr ec) := by
  unfold extract_performance_stats at h
  simp only [bind, Except.bind, pure, Except.pure, Functor.map,
    Except.map] at h
  repeat' split at h
  all_goals first
    | (injection h with h; subst h; exact ⟨_, by assumption, rfl⟩)
    | simp_all

/-- C10 amended: the equity curve comes only from the Strategy Equity
chart; the Equity series is used when that key is present, otherwise
the first series key provided it is truthy (in particular a first
series named by the empty string yields no curve, as does a missing
chart or missing series); each kept point is a dict reshaped to
exactly the keys x and y read from x or X and y or Y with default 0,
and non-dict points are skipped. -/
theorem claim_C10_equity_pipeline :
    (∀ r l out, extract_performance_stats r l = .ok out →
      ∃ ec, equity_curve r = .ok ec
        ∧ out.jlookup "equityCurve" = some (.arr ec))
    ∧ (∀ r ch, resolve_charts r = .ok ch →
        JVal.jmem "Strategy Equity" ch = .ok false →
        equity_curve r = .ok [])
    ∧ (∀ r ch sec es sv vals pts, resolve_charts r = .ok ch →
        JVal.jmem "Strategy Equity" ch = .ok true →
        ch.jindex (.str "Strategy Equity") = .ok sec →
        series_of sec = .ok es →
        JVal.jmem "Equity" es = .ok true →
        es.jindex (.str "Equity") = .ok sv →
        values_of sv = .ok vals →
        vals.pyIter = .ok pts →
        equity_curve r = .ok (pts.filterMap mkPoint))
    ∧ (∀ r ch sec es k sv vals pts, resolve_charts r = .ok ch →
        JVal.jmem "Strategy Equity" ch = .ok true →
        ch.jindex (.str "Strategy Equity") = .ok sec →
        series_of sec = .ok es →
        JVal.jmem "Equity" es = .ok false →
        es.pyNext = .ok k → k.truthy = true →
        es.jindex k = .ok sv →
        values_of sv = .ok vals →
        vals.pyIter = .ok pts →
        equity_curve r = .ok (pts.filterMap mkPoint))
    ∧ (∀ r ch sec es k, resolve_charts r = .ok ch →
        JVal.jmem "Strategy Equity" ch = .ok true →
        ch.jindex (.str "Strategy Equity") = .ok sec →
        series_of sec = .ok es →
        JVal.jmem "Equity" es = .ok false →
        es.pyNext = .ok k → k.truthy = false →
        equity_curve r = .ok [])
    ∧ (∀ fs, mkPoint (.obj fs) =
        some (.obj [("x", JVal.getF fs "x" (JVal.getF fs "X" (.intg 0))),
                    ("y", JVal.getF fs "y" (JVal.getF fs "Y" (.intg 0)))]))
    ∧ (∀ p, (∀ fs, p ≠ .obj fs) → mkPoint p = none)
    ∧ (∀ fs q, mkPoint (.obj fs) = some q → q.jkeys = ["x", "y"]) := by
  refine ⟨extract_equity_of_ok, ?_, ?_, ?_, ?_, fun fs => rfl, ?_, ?_⟩
  · intro r ch h1 h2
    simp [equity_curve, h1, h2, ebind_ok, pure_ok]
  · intro r ch sec es sv vals pts h1 h2 h3 h4 h5 h6 h7 h8
    simp [equity_curve, h1, h2, h3, h4, h5, h6, h7, h8, ebind_ok, pure_ok,
      show (JVal.str "Equity").truthy = true from rfl]
  · intro r ch sec es k sv vals pts h1 h2 h3 h4 h5 h6 h7 h8 h9 h10
    simp [equity_curve, h1, h2, h3, h4, h5, h6, h7, h8, h9, h10, ebind_ok,
      pure_ok]
  · intro r ch sec es k h1 h2 h3 h4 h5 h6 h7
    simp [equity_curve, h1, h2, h3, h4, h5, h6, h7, ebind_ok, pure_ok]
  · intro p hp
    cases p with
    | obj fs => exact absurd rfl (hp fs)
    | null => rfl
    | bool b => rfl
    | intg n => rfl
    | num q => rfl
    | str s => rfl
    | arr xs => rfl
  · intro fs q h
    rw [mkPoint] at h
    injection h with h
    subst h
    rfl

/-- A result carrying a Strategy Equity chart with an Equity series
of two points, one a dict missing y and one a bare string. -/
def equityWitnessInput : JVal :=
  .obj [("charts", .obj [("Strategy Equity",
    .obj [("series", .obj [("Equity", .obj [("values",
      .arr [.obj [("x", .intg 1)], .str "skip"])])])])])]

/-- C10 witness: the chart above extracts exactly the reshaped dict
point, whose keys are x and y. -/
theorem claim_C10_equity_pipeline_witness :
    equity_curve equityWitnessInput =
      .ok [JVal.obj [("x", .intg 1), ("y", .intg 0)]]
    ∧ (JVal.obj [("x", .intg 1), ("y", .intg 0)]).jkeys = ["x", "y"] :=
  ⟨claim_C10_equity_pipeline.2.2.1 equityWitnessInput _ _ _ _ _ _
      rfl rfl rfl rfl rfl rfl rfl rfl,
   claim_C10_equity_pipeline.2.2.2.2.2.2.2 [("x", .intg 1)] _ rfl⟩

/-- C3 counterexample: a 200 response whose body is not valid JSON
makes api_request raise rather than return a success-False value, and
such a failure during authentication aborts the whole run with an
uncaught exception instead of a clean exit. -/
theorem claim_C3_counterexample :
    api_request "authenticate" (fun _ => .ok none) =
      .error "json.decoder.JSONDecodeError"
    ∧ FetchData.main (some "123") (some "tok") none "." "2024-01-01T00:00:00"
        (fun _ => .ok none) = .crashed "json.decoder.JSONDecodeError"
    ∧ ∀ v : JVal, api_request "authenticate" (fun _ => .ok none) ≠ .ok v := by
  refine ⟨rfl, rfl, fun v h => ?_⟩
  exact Except.noConfusion h

/-- C3 amended: HTTP status errors and connection errors are caught
and turned into a success-False dict with an errors list; missing or
empty credentials exit with status 1, as does a failed authenticate
call; an endpoint whose response has a falsy success entry degrades
to an empty list; but a response body that is not valid JSON raises
an uncaught exception that propagates out of api_request and aborts
the run. -/
theorem claim_C3_error_handling :
    (∀ e w c s, w e = FetchOutcome.httpError c s →
      api_request e w = .ok (.obj [("success", .bool false),
        ("errors", .arr [.str ("HTTP " ++ toString c ++ ": " ++ s)])]))
    ∧ (∀ e w s, w e = FetchOutcome.urlError s →
      api_request e w = .ok (.obj [("success", .bool false),
        ("errors", .arr [.str s])]))
    ∧ (∀ e w, w e = FetchOutcome.ok none →
      api_request e w = .error "json.decoder.JSONDecodeError")
    ∧ (∀ tok pid sd now w,
        FetchData.main none tok pid sd now w = .exited 1
        ∧ FetchData.main (some "") tok pid sd now w = .exited 1)
    ∧ (∀ uid pid sd now w, envTruthy uid = true →
        FetchData.main uid none pid sd now w = .exited 1
        ∧ FetchData.main uid (some "") pid sd now w = .exited 1)
    ∧ (∀ uid tok pid sd now w r sv, envTruthy uid = true →
        envTruthy tok = true →
        w "authenticate" = FetchOutcome.ok (some r) →
        r.dictGet "success" (.bool false) = .ok sv → sv.truthy = false →
        FetchData.main uid tok pid sd now w = .exited 1)
    ∧ (∀ w r sv, w "projects/read" = FetchOutcome.ok (some r) →
        r.jget "success" = .ok sv → sv.truthy = false →
        (fetch_projects w).1 = .ok (.arr [])) := by
  refine ⟨?_, ?_, ?_, ?_, ?_, ?_, ?_⟩
  · intro e w c s h
    simp [api_request, h]
  · intro e w s h
    simp [api_request, h]
  · intro e w h
    simp [api_request, h]
  · intro tok pid sd now w
    constructor <;> rfl
  · intro uid pid sd now w h
    rw [FetchData.main, FetchData.main]
    constructor <;>
      simp [h, envTruthy, show ("" : String).isEmpty = true from rfl]
  · intro uid tok pid sd now w r sv hu ht hw hget hf
    rw [FetchData.main]
    rw [hu, ht]
    have ha : (fetch_authenticate w).1 = .ok sv := by
      simp [fetch_authenticate, api_request, hw, ebind_ok, hget]
    simp [ha, hf]
  · intro w r sv hw hget hf
    simp [fetch_projects, api_request, hw, ebind_ok, hget, hf, pure_ok]

/-- A world whose every response is a success-False body. -/
def failWorld : String → FetchOutcome :=
  fun _ => .ok (some (.obj [("success", .bool false)]))

/-- C3 witness: concrete worlds exercising each caught and uncaught
failure mode. -/
theorem claim_C3_error_handling_witness :
    api_request "projects/read" (fun _ => .httpError 500 "Server Error") =
      .ok (.obj [("success", .bool false),
        ("errors", .arr [.str ("HTTP " ++ toString 500 ++ ": Server Error")])])
    ∧ api_request "live/list" (fun _ => .urlError "timed out") =
      .ok (.obj [("success", .bool false), ("errors", .arr [.str "timed out"])])
    ∧ api_request "authenticate" (fun _ => .ok none) =
      .error "json.decoder.JSONDecodeError"
    ∧ FetchData.main none (some "t") none "." "now" failWorld = .exited 1
    ∧ FetchData.main (some "") (some "t") none "." "now" failWorld = .exited 1
    ∧ FetchData.main (some "123") none none "." "now" failWorld = .exited 1
    ∧ FetchData.main (some "123") (some "") none "." "now" failWorld = .exited 1
    ∧ FetchData.main (some "123") (some "t") none "." "now" failWorld =
        .exited 1
    ∧ (fetch_projects failWorld).1 = .ok (.arr []) := by
  refine ⟨claim_C3_error_handling.1 "projects/read" _ 500 "Server Error" rfl,
    claim_C3_error_handling.2.1 "live/list" _ "timed out" rfl,
    claim_C3_error_handling.2.2.1 "authenticate" _ rfl,
    (claim_C3_error_handling.2.2.2.1 (some "t") none "." "now" failWorld).1,
    (claim_C3_error_handling.2.2.2.1 (some "t") none "." "now" failWorld).2,
    (claim_C3_error_handling.2.2.2.2.1 (some "123") none "." "now" failWorld
      (by decide)).1,
    (claim_C3_error_handling.2.2.2.2.1 (some "123") none "." "now" failWorld
      (by decide)).2,
    claim_C3_error_handling.2.2.2.2.2.1 (some "123") (some "t") none "." "now"
      failWorld _ _ (by decide) (by decide) rfl rfl rfl,
    claim_C3_error_handling.2.2.2.2.2.2 failWorld _ _ rfl rfl rfl⟩

/-- C5 counterexample: when the first live-details request comes back
success-False, a second request in the alternative format is issued,
so the fetch performs two requests, not one. -/
theorem claim_C5_counterexample :
    (fetch_live_details (.intg 1) (.str "d") failWorld).2 =
      ["live/read&projectId=1&deployId=d", "live/read&projectId=1"]
    ∧ (fetch_live_details (.intg 1) (.str "d") failWorld).2.length = 2
    ∧ 2 ≠ 1 := ⟨rfl, rfl, by decide⟩

/-- C5 amended: no endpoint is requested twice.  fetch_live_details
issues one request when the first response is a success and otherwise
a second request to a distinct, shorter endpoint, never more; every
other fetch operation issues exactly one request. -/
theorem claim_C5_request_counts :
    (∀ pid did w, (fetch_live_details pid did w).2 = [live_details_ep1 pid did]
      ∨ (fetch_live_details pid did w).2 =
          [live_details_ep1 pid did, live_details_ep2 pid])
    ∧ (∀ pid did, live_details_ep1 pid did ≠ live_details_ep2 pid)
    ∧ (∀ pid did w r sv, w (live_details_ep1 pid did) = .ok (some r) →
        r.jget "success" = .ok sv → sv.truthy = true →
        (fetch_live_details pid did w).2 = [live_details_ep1 pid did])
    ∧ (∀ w, (fetch_authenticate w).2.length = 1
        ∧ (fetch_projects w).2.length = 1
        ∧ (fetch_live_list w).2.length = 1)
    ∧ (∀ pid w, (fetch_backtests pid w).2.length = 1)
    ∧ (∀ pid bid w, (fetch_backtest_details pid bid w).2.length = 1) := by
  refine ⟨?_, ?_, ?_, fun w => ⟨rfl, rfl, rfl⟩, fun pid w => rfl,
    fun pid bid w => rfl⟩
  · intro pid did w
    rw [fetch_live_details]
    repeat' split
    all_goals first | exact Or.inl rfl | exact Or.inr rfl
  · intro pid did h
    have h2 := congrArg String.length h
    rw [live_details_ep1, live_details_ep2] at h2
    simp only [String.length_append] at h2
    have h3 : ("&deployId=" : String).length = 10 := rfl
    omega
  · intro pid did w r sv hw hget hf
    rw [fetch_live_details]
    have ha : api_request (live_details_ep1 pid did) w = .ok r := by
      simp [api_request, hw]
    rw [ha]
    simp [hget, hf]

/-- A world that answers every request with a success-True body. -/
def okAuthWorld : String → FetchOutcome :=
  fun _ => .ok (some (.obj [("success", .bool true)]))

/-- C5 witness: with a succeeding first response, the live-details
fetch requests exactly its primary endpoint. -/
theorem claim_C5_request_counts_witness :
    (fetch_live_details (.intg 7) (.str "dep") okAuthWorld).2 =
      [live_details_ep1 (.intg 7) (.str "dep")]
    ∧ live_details_ep1 (.intg 7) (.str "dep") ≠ live_details_ep2 (.intg 7) :=
  ⟨claim_C5_request_counts.2.2.1 (.intg 7) (.str "dep") okAuthWorld _ _
      rfl rfl rfl,
   claim_C5_request_counts.2.1 (.intg 7) (.str "dep")⟩

/-- The shape shared by every project record main appends: exactly
the four documented keys, and a record whose live field is None has a
nonempty backtests list. -/
def projShape (p : JVal) : Prop :=
  p.jkeys = ["id", "name", "backtests", "live"]
  ∧ (p.jlookup "live" = some .null → p.jlookup "backtests" ≠ some (.arr []))

theorem extract_ok_is_obj (r : JVal) (l : Bool) (out : JVal)
    (h : extract_performance_stats r l = .ok out) : ∃ fs, out = .obj fs := by
  have hk := extract_keys_of_ok r l out h
  cases out with
  | obj fs => exact ⟨fs, rfl⟩
  | null => simp [JVal.jkeys, extractKeys] at hk
  | bool b => simp [JVal.jkeys, extractKeys] at hk
  | intg n => simp [JVal.jkeys, extractKeys] at hk
  | num q => simp [JVal.jkeys, extractKeys] at hk
  | str s => simp [JVal.jkeys, extractKeys] at hk
  | arr xs => simp [JVal.jkeys, extractKeys] at hk

theorem live_record_is_obj (stats st dp : JVal) (h : ∃ fs, stats = .obj fs) :
    ∃ gs, live_record stats st dp = .obj gs := by
  obtain ⟨fs, rfl⟩ := h
  exact ⟨_, rfl⟩

theorem liveProj_shape (pid name lv : JVal) (h : ∃ gs, lv = .obj gs) :
    projShape (.obj [("id", pid), ("name", name),
      ("backtests", .arr []), ("live", lv)]) := by
  obtain ⟨gs, rfl⟩ := h
  refine ⟨rfl, fun hl => ?_⟩
  simp [JVal.jlookup, List.lookup] at hl

theorem btProj_shape (pid name : JVal) (entries : List JVal)
    (h : entries ≠ []) :
    projShape (.obj [("id", pid), ("name", name),
      ("backtests", .arr entries), ("live", .null)]) := by
  refine ⟨rfl, fun _ hb => ?_⟩
  have : entries = [] := by
    have hb2 : JVal.arr entries = .arr [] := by
      have : some (JVal.arr entries) = some (JVal.arr []) := hb
      injection this
    injection hb2
  exact h this

theorem live_value_is_obj (ld st dp v : JVal) (h : live_value ld st dp = .ok v) :
    ∃ gs, v = .obj gs := by
  rw [live_value] at h
  split at h
  · cases hx : extract_performance_stats ld true with
    | error e => rw [hx] at h; exact Except.noConfusion h
    | ok stats =>
      rw [hx] at h
      simp only [Except.map] at h
      injection h with h
      subst h
      exact live_record_is_obj _ _ _ (extract_ok_is_obj _ _ _ hx)
  · injection h with h
    subst h
    exact ⟨_, rfl⟩

theorem process_live_shape (w : String → FetchOutcome) :
    ∀ (algos ids projs : List JVal),
    (∀ p ∈ projs, projShape p) →
    ∀ r, process_live w algos ids projs = .ok r →
    ∀ p ∈ r.2, projShape p := by
  intro algos
  induction algos with
  | nil =>
    intro ids projs hpre r h p hp
    rw [process_live] at h
    injection h with h
    subst h
    exact hpre p hp
  | cons a rest ih =>
    intro ids projs hpre r h p hp
    rw [process_live] at h
    simp only [bind, Except.bind] at h
    repeat' split at h
    all_goals try exact Except.noConfusion h
    all_goals first
      | exact ih _ _ hpre r h p hp
      | (refine ih _ _ ?_ r h p hp
         intro q hq
         rcases List.mem_append.mp hq with hq1 | hq2
         · exact hpre q hq1
         · rcases List.mem_singleton.mp hq2 with rfl
           exact liveProj_shape _ _ _
             (live_value_is_obj _ _ _ _ (by assumption)))

theorem process_projects_shape (w : String → FetchOutcome)
    (ids : List JVal) :
    ∀ (prs acc : List JVal),
    (∀ p ∈ acc, projShape p) →
    ∀ r, process_projects w ids prs acc = .ok r →
    ∀ p ∈ r, projShape p := by
  intro prs
  induction prs with
  | nil =>
    intro acc hpre r h p hp
    rw [process_projects] at h
    injection h with h
    subst h
    exact hpre p hp
  | cons a rest ih =>
    intro acc hpre r h p hp
    rw [process_projects] at h
    simp only [bind, Except.bind] at h
    repeat' split at h
    all_goals try exact Except.noConfusion h
    all_goals first
      | exact ih _ hpre r h p hp
      | (refine ih _ ?_ r h p hp
         intro q hq
         first
         | exact hpre q hq
         | (rcases List.mem_append.mp hq with hq1 | hq2
            · exact hpre q hq1
            · rcases List.mem_singleton.mp hq2 with rfl
              refine btProj_shape _ _ _ ?_
              intro he
              subst he
              simp_all))

theorem build_projects_shape (pid : Option String)
    (w : String → FetchOutcome) (projs : List JVal)
    (h : build_projects pid w = .ok projs) :
    ∀ p ∈ projs, projShape p := by
  rw [build_projects] at h
  simp only [bind, Except.bind] at h
  repeat' split at h
  all_goals try exact Except.noConfusion h
  all_goals intro p hp
  · injection h with h
    subst h
    rcases List.mem_append.mp hp with h1 | h2
    · exact process_live_shape _ _ _ _
        (fun _ hq => absurd hq (List.not_mem_nil _)) _ (by assumption) p h1
    · exact process_projects_shape _ _ _ _
        (fun _ hq => absurd hq (List.not_mem_nil _)) _ (by assumption) p h2
  · injection h with h
    subst h
    exact process_live_shape _ _ _ _
      (fun _ hq => absurd hq (List.not_mem_nil _)) _ (by assumption) p hp

/-! Correctness of the stable descending sort. -/

theorem kLt_asymm (a b : JVal) (h : kLt a b = true) : kLt b a = false := by
  cases a <;> cases b <;>
    simp only [kLt, JVal.asNum, decide_eq_true_eq] at h ⊢ <;>
    first
      | exact Bool.noConfusion h
      | rfl
      | (rw [decide_eq_false_iff_not]; exact lt_asymm h)
      | exact le_of_lt h
      | exact lt_asymm h

theorem kLt_trans (a b c : JVal) (h1 : kLt a b = true) (h2 : kLt b c = true) :
    kLt a c = true := by
  cases a <;> cases b <;> cases c <;>
    simp only [kLt, JVal.asNum, decide_eq_true_eq] at h1 h2 ⊢ <;>
    first
      | exact Bool.noConfusion h1
      | exact Bool.noConfusion h2
      | (rw [decide_eq_true_eq]; exact lt_trans h1 h2)
      | exact lt_trans h1 h2

theorem insortDesc_perm (p : JVal × JVal) (l : List (JVal × JVal)) :
    List.Perm (insortDesc p l) (p :: l) := by
  induction l with
  | nil => exact List.Perm.refl _
  | cons q qs ih =>
    rw [insortDesc]
    split
    · exact List.Perm.refl _
    · exact (ih.cons q).trans (List.Perm.swap p q qs)

theorem sortPairsDesc_perm (ps : List (JVal × JVal)) :
    List.Perm (sortPairsDesc ps) ps := by
  suffices h : ∀ acc : List (JVal × JVal),
      List.Perm (ps.foldl (fun acc p => insortDesc p acc) acc) (acc ++ ps) by
    simpa using h []
  induction ps with
  | nil => intro acc; simp
  | cons p rest ih =>
    intro acc
    rw [List.foldl_cons]
    refine (ih (insortDesc p acc)).trans ?_
    have h1 : List.Perm (insortDesc p acc ++ rest) ((p :: acc) ++ rest) :=
      (insortDesc_perm p acc).append_right rest
    refine h1.trans ?_
    simp only [List.cons_append]
    exact List.perm_middle.symm

/-- Descending order of keyed records: no later record has a
strictly greater key. -/
def DescKeys (l : List (JVal × JVal)) : Prop :=
  l.Pairwise (fun x y => kLt x.1 y.1 = false)

theorem insortDesc_sorted (p : JVal × JVal) (l : List (JVal × JVal))
    (h : DescKeys l) : DescKeys (insortDesc p l) := by
  induction l with
  | nil => exact List.pairwise_singleton _ p
  | cons q qs ih =>
    rw [DescKeys, List.pairwise_cons] at h
    obtain ⟨hq, hqs⟩ := h
    rw [insortDesc]
    split
    · rename_i hlt
      refine List.Pairwise.cons ?_ (List.Pairwise.cons hq hqs)
      intro r hr
      rcases List.mem_cons.mp hr with rfl | hr2
      · exact kLt_asymm _ _ hlt
      · cases hpr : kLt p.1 r.1 with
        | false => rfl
        | true =>
          have := kLt_trans _ _ _ hlt hpr
          rw [hq r hr2] at this
          exact Bool.noConfusion this
    · rename_i hnlt
      refine List.Pairwise.cons ?_ (ih hqs)
      intro r hr
      have hr2 := (insortDesc_perm p qs).mem_iff.mp hr
      rcases List.mem_cons.mp hr2 with rfl | hr3
      · exact Bool.not_eq_true _ ▸ (Bool.of_not_eq_true hnlt)
      · exact hq r hr3

theorem sortPairsDesc_sorted (ps : List (JVal × JVal)) :
    DescKeys (sortPairsDesc ps) := by
  suffices h : ∀ acc : List (JVal × JVal), DescKeys acc →
      DescKeys (ps.foldl (fun acc p => insortDesc p acc) acc) by
    exact h [] List.Pairwise.nil
  induction ps with
  | nil => intro acc hacc; exact hacc
  | cons p rest ih =>
    intro acc hacc
    rw [List.foldl_cons]
    exact ih _ (insortDesc_sorted p acc hacc)

/-- The sort key of a backtest record as Python computes it for dict
records: the created entry, defaulting to the empty string. -/
def sortKey (x : JVal) : JVal :=
  match x with
  | .obj fs => JVal.getF fs "created" (.str "")
  | _ => .str ""

theorem created_pairs_eq (bts : List JVal)
    (pairs : List (JVal × JVal))
    (h : created_pairs bts = .ok pairs) :
    pairs = bts.map (fun x => (sortKey x, x)) := by
  induction bts generalizing pairs with
  | nil =>
    rw [created_pairs] at h
    injection h with h
    subst h
    rfl
  | cons a rest ih =>
    rw [created_pairs] at h
    simp only [bind, Except.bind, pure, Except.pure] at h
    repeat' split at h
    all_goals try exact Except.noConfusion h
    injection h with h
    subst h
    rename_i x1 k hk x2 prest hrest
    clear x1 x2
    have hka : k = sortKey a := by
      cases a with
      | obj fs =>
        rw [JVal.dictGet] at hk
        injection hk with hk
        rw [← hk, sortKey]
      | null => exact Except.noConfusion hk
      | bool b => exact Except.noConfusion hk
      | intg n => exact Except.noConfusion hk
      | num q => exact Except.noConfusion hk
      | str s => exact Except.noConfusion hk
      | arr xs => exact Except.noConfusion hk
    rw [List.map_cons, hka, ih prest hrest]

theorem sort_by_created_spec (bts l : List JVal)
    (h : sort_by_created bts = .ok l) :
    List.Perm l bts
    ∧ l.Pairwise (fun a b => kLt (sortKey a) (sortKey b) = false) := by
  rw [sort_by_created] at h
  simp only [bind, Except.bind, pure, Except.pure] at h
  repeat' split at h
  all_goals try exact Except.noConfusion h
  injection h with h
  subst h
  rename_i x1 pairs hpairs hguard
  clear x1
  have hform := created_pairs_eq bts pairs hpairs
  subst hform
  have hmem : ∀ p ∈ sortPairsDesc (bts.map (fun x => (sortKey x, x))),
      p.1 = sortKey p.2 := by
    intro p hp
    have hp2 := (sortPairsDesc_perm _).mem_iff.mp hp
    obtain ⟨x, _, rfl⟩ := List.mem_map.mp hp2
    rfl
  constructor
  · refine ((sortPairsDesc_perm _).map Prod.snd).trans ?_
    rw [List.map_map]
    have : (Prod.snd ∘ fun x => (sortKey x, x)) = id := rfl
    rw [this, List.map_id]
  · rw [List.pairwise_map]
    refine (sortPairsDesc_sorted _).imp_of_mem ?_
    intro a b ha hb hab
    rw [hmem a ha, hmem b hb] at hab
    exact hab

theorem process_backtests_length (pid : JVal) (w : String → FetchOutcome) :
    ∀ (l : List JVal) (out : List JVal),
    process_backtests pid w l = .ok out → out.length ≤ l.length := by
  intro l
  induction l with
  | nil =>
    intro out h
    rw [process_backtests] at h
    injection h with h
    subst h
    exact Nat.le_refl 0
  | cons bt rest ih =>
    intro out h
    rw [process_backtests] at h
    simp only [bind, Except.bind, pure, Except.pure] at h
    repeat' split at h
    all_goals try exact Except.noConfusion h
    all_goals injection h with h
    all_goals subst h
    all_goals first
      | simpa using Nat.succ_le_succ (ih _ (by assumption))
      | exact Nat.le_succ_of_le (ih _ (by assumption))

theorem process_backtests_mem (pid : JVal) (w : String → FetchOutcome) :
    ∀ (l : List JVal) (out : List JVal),
    process_backtests pid w l = .ok out →
    ∀ e ∈ out, ∃ bt ∈ l, process_backtest_entry pid w bt = .ok (some e) := by
  intro l
  induction l with
  | nil =>
    intro out h e he
    rw [process_backtests] at h
    injection h with h
    subst h
    exact absurd he (List.not_mem_nil e)
  | cons bt rest ih =>
    intro out h e he
    rw [process_backtests] at h
    simp only [bind, Except.bind, pure, Except.pure] at h
    repeat' split at h
    all_goals try exact Except.noConfusion h
    all_goals injection h with h
    all_goals subst h
    all_goals first
      | (rcases List.mem_cons.mp he with rfl | he2
         · exact ⟨bt, List.mem_cons_self bt rest, by assumption⟩
         · obtain ⟨bt2, hbt2, hp⟩ := ih _ (by assumption) e he2
           exact ⟨bt2, List.mem_cons_of_mem bt hbt2, hp⟩)
      | (obtain ⟨bt2, hbt2, hp⟩ := ih _ (by assumption) e he
         exact ⟨bt2, List.mem_cons_of_mem bt hbt2, hp⟩)

theorem backtest_entry_some_inv (pid : JVal) (w : String → FetchOutcome)
    (bt e : JVal) (h : process_backtest_entry pid w bt = .ok (some e)) :
    ∃ bid, bt.jget "backtestId" = .ok bid ∧ bid.truthy = true
    ∧ ∃ comp, bt.jget "completed" = .ok comp ∧ comp.truthy = true
    ∧ ∃ details, (fetch_backtest_details pid bid w).1 = .ok details
    ∧ details.truthy = true := by
  rw [process_backtest_entry] at h
  simp only [bind, Except.bind, pure, Except.pure] at h
  repeat' split at h
  all_goals try exact Except.noConfusion h
  all_goals try (injection h with h; exact Option.noConfusion h)
  refine ⟨_, by assumption, by assumption,
    _, by assumption, by assumption,
    _, by assumption, by assumption⟩

theorem main_finished_inv (uid tok pid : Option String) (sd now : String)
    (w : String → FetchOutcome) (p : String) (doc : JVal)
    (h : FetchData.main uid tok pid sd now w = .finished p doc) :
    p = output_path sd
    ∧ ∃ projs, build_projects pid w = .ok projs
      ∧ doc = .obj [("generated", .str (now ++ "Z")),
                    ("projects", .arr projs)] := by
  rw [FetchData.main] at h
  repeat' split at h
  all_goals try exact RunResult.noConfusion h
  injection h with h1 h2
  subst h1
  subst h2
  exact ⟨rfl, _, by assumption, rfl⟩

/-- C6: a finished run writes to the fixed path data/dashboard.json
under the script directory; the document has exactly the keys
generated (a string timestamp) and projects (a list), and every
project element has exactly the keys id, name, backtests and live. -/
theorem claim_C6_output_document (uid tok pid : Option String)
    (sd now : String) (w : String → FetchOutcome) (p : String) (doc : JVal)
    (h : FetchData.main uid tok pid sd now w = .finished p doc) :
    p = ospJoin (ospJoin sd "data") "dashboard.json"
    ∧ doc.jkeys = ["generated", "projects"]
    ∧ ∃ projs, doc.jlookup "generated" = some (.str (now ++ "Z"))
      ∧ doc.jlookup "projects" = some (.arr projs)
      ∧ ∀ q ∈ projs, q.jkeys = ["id", "name", "backtests", "live"] := by
  obtain ⟨hp, projs, hb, hdoc⟩ := main_finished_inv uid tok pid sd now w p doc h
  subst hdoc
  refine ⟨hp, rfl, projs, rfl, rfl, fun q hq => ?_⟩
  exact (build_projects_shape pid w projs hb q hq).1

/-- C6 witness: a run against a world of empty successes finishes at
the fixed path with an empty project list and the documented keys. -/
theorem claim_C6_output_document_witness :
    ∃ doc, FetchData.main (some "1") (some "t") none "sd" "now" okAuthWorld =
      .finished "sd/data/dashboard.json" doc
    ∧ doc.jkeys = ["generated", "projects"] := by
  obtain ⟨h1, h2, _⟩ := claim_C6_output_document (some "1") (some "t") none
    "sd" "now" okAuthWorld (output_path "sd")
    (.obj [("generated", .str ("now" ++ "Z")), ("projects", .arr [])]) rfl
  exact ⟨_, rfl, h2⟩

/-- C8: each backtest-branch project keeps at most 3 entries, drawn
from the backtests sorted newest-first by their created key, keeping
only records with a truthy backtestId that are marked completed and
whose detail fetch is truthy; a project whose entry list is empty is
not in the output at all (every output project whose live field is
None has a nonempty backtests list). -/
theorem claim_C8_backtest_selection :
    (∀ bts l, sort_by_created bts = .ok l →
      List.Perm l bts
      ∧ l.Pairwise (fun a b => kLt (sortKey a) (sortKey b) = false))
    ∧ (∀ pid w bts out, backtest_entries pid w bts = .ok out →
        out.length ≤ 3)
    ∧ (∀ pid w bts out, backtest_entries pid w bts = .ok out →
        ∀ e ∈ out, ∃ sorted, sort_by_created bts = .ok sorted
          ∧ ∃ bt ∈ sorted.take 3,
            process_backtest_entry pid w bt = .ok (some e)
            ∧ ∃ bid, bt.jget "backtestId" = .ok bid ∧ bid.truthy = true
            ∧ ∃ comp, bt.jget "completed" = .ok comp ∧ comp.truthy = true
            ∧ ∃ details, (fetch_backtest_details pid bid w).1 = .ok details
              ∧ details.truthy = true)
    ∧ (∀ uid tok pidE sd now w p doc,
        FetchData.main uid tok pidE sd now w = .finished p doc →
        ∀ projs, doc.jlookup "projects" = some (.arr projs) →
        ∀ q ∈ projs, q.jlookup "live" = some .null →
          q.jlookup "backtests" ≠ some (.arr [])) := by
  refine ⟨sort_by_created_spec, ?_, ?_, ?_⟩
  · intro pid w bts out h
    rw [backtest_entries] at h
    simp only [bind, Except.bind] at h
    split at h
    · exact Except.noConfusion h
    · exact (process_backtests_length pid w _ out h).trans
        (List.length_take_le 3 _)
  · intro pid w bts out h e he
    rw [backtest_entries] at h
    simp only [bind, Except.bind] at h
    split at h
    · exact Except.noConfusion h
    · rename_i sorted hsorted
      obtain ⟨bt, hbt, hp⟩ := process_backtests_mem pid w _ out h e he
      obtain ⟨bid, h1, h2, comp, h3, h4, details, h5, h6⟩ :=
        backtest_entry_some_inv pid w bt e hp
      exact ⟨sorted, hsorted, bt, hbt, hp, bid, h1, h2, comp, h3, h4,
        details, h5, h6⟩
  · intro uid tok pidE sd now w p doc h projs hprojs q hq hlive
    obtain ⟨hp, projs0, hb, hdoc⟩ := main_finished_inv uid tok pidE sd now w
      p doc h
    subst hdoc
    have hpr : projs0 = projs := by
      rw [JVal.jlookup] at hprojs
      simp only [List.lookup] at hprojs
      injection hprojs with hprojs
      injection hprojs
    subst hpr
    exact (build_projects_shape pidE w projs0 hb q hq).2 hlive

/-- A backtest list record with a truthy id, completed marker and a
created timestamp. -/
def sampleBacktest : JVal :=
  .obj [("backtestId", .str "b1"), ("completed", .bool true),
        ("created", .str "2024-01-02")]

/-- A world serving one completed backtest with truthy details. -/
def backtestWorld : String → FetchOutcome := fun e =>
  if e = "backtests/read&projectId=5&backtestId=b1" then
    .ok (some (.obj [("success", .bool true),
      ("backtest", .obj [("x", .intg 1)])]))
  else .ok (some (.obj [("success", .bool true)]))

/-- C8 witness: one completed backtest is kept (at most three), its
entry traced back to the sorted record with all three filters truthy,
and an empty-projects run has no record violating the omission
rule. -/
theorem claim_C8_backtest_selection_witness :
    (∃ out, backtest_entries (.intg 5) backtestWorld [sampleBacktest] =
        .ok out ∧ out.length ≤ 3)
    ∧ (∃ e out, backtest_entries (.intg 5) backtestWorld [sampleBacktest] =
        .ok out ∧ e ∈ out
      ∧ ∃ sorted, sort_by_created [sampleBacktest] = .ok sorted
        ∧ ∃ bt ∈ sorted.take 3,
          process_backtest_entry (.intg 5) backtestWorld bt = .ok (some e)
          ∧ ∃ bid, bt.jget "backtestId" = .ok bid ∧ bid.truthy = true
          ∧ ∃ comp, bt.jget "completed" = .ok comp ∧ comp.truthy = true
          ∧ ∃ details,
              (fetch_backtest_details (.intg 5) bid backtestWorld).1 =
                .ok details
            ∧ details.truthy = true)
    ∧ (∀ q ∈ ([] : List JVal), q.jlookup "live" = some .null →
        q.jlookup "backtests" ≠ some (.arr [])) := by
  refine ⟨⟨_, rfl, claim_C8_backtest_selection.2.1 (.intg 5) backtestWorld
      [sampleBacktest] _ rfl⟩, ?_, ?_⟩
  · obtain ⟨sorted, hs, rest⟩ := claim_C8_backtest_selection.2.2.1 (.intg 5)
      backtestWorld [sampleBacktest] _ rfl _ (List.mem_singleton.mpr rfl)
    exact ⟨_, _, rfl, List.mem_singleton.mpr rfl, sorted, hs, rest⟩
  · intro q hq
    have h := claim_C8_backtest_selection.2.2.2 (some "1") (some "t") none
      "sd" "now" okAuthWorld (output_path "sd")
      (.obj [("generated", .str ("now" ++ "Z")), ("projects", .arr [])]) rfl
      [] rfl q hq
    exact h
